import Mathlib

/-!
# Verification of the hddfancontrol daemon core

Shallow embedding of `src/main.rs` (the daemon control loop, fan-speed
aggregation, drive probing policy, pwm-test command) together with
spec-modelled definitions for the repository modules that are referenced
from `main.rs` but whose source files (`fan.rs`, `device.rs`, `exit.rs`)
are not part of the provided sources.

Temperatures and speeds are modelled as rationals (`ℚ`); the Rust code
uses `f64` with the documented invariants `0 ≤ Speed ≤ 1` and
`range.low < range.high`.
-/

namespace Hddfancontrol

/-- A temperature range, mirroring Rust's `Range<Temp>` with
`start`/`end` fields (named `low`/`high` as in the spec). Invariant:
`low < high`. -/
structure TempRange where
  low : ℚ
  high : ℚ
deriving DecidableEq, Repr

/-- Modelled from the spec: `fan::target_speed` (file `fan.rs` is not in
the provided sources; only its call sites in `main.rs` are).  §4.4:
"Piecewise-linear: for temp ≤ range.low, result = floor_speed; for
temp ≥ range.high, result = 1.0; otherwise linearly interpolate:
`floor_speed + (1.0 - floor_speed) * (temp - low) / (high - low)`." -/
def target_speed (temp : ℚ) (range : TempRange) (floor_speed : ℚ) : ℚ :=
  if temp ≤ range.low then
    floor_speed
  else if range.high ≤ temp then
    1
  else
    floor_speed + (1 - floor_speed) * (temp - range.low) / (range.high - range.low)

/-- The per-tick speed aggregation of `main.rs` lines 320–331:
start from `min_fan_speed`, fold the max drive temperature (when present)
through `target_speed` against the configured drive range, then fold each
hwmon temperature against its own range, each time passing the running
speed as the floor argument. -/
def computeSpeed (min_fan_speed : ℚ) (driveRange : TempRange)
    (maxDriveTemp : Option ℚ) (hwmonTemps : List (ℚ × TempRange)) : ℚ :=
  let speed := min_fan_speed
  let speed :=
    match maxDriveTemp with
    | some t => target_speed t driveRange speed
    | none => speed
  hwmonTemps.foldl (fun s p => target_speed p.1 p.2 s) speed

/-- Errors surfaced by state queries, temperature probes, hwmon reads and
pwm writes.  In the Rust code these are `anyhow::Error` values built with
`.context(...)`; only their presence matters here. -/
inductive TickError where
  | stateQueryFail
  | probeFail
  | hwmonReadFail
  | pwmWriteFail
deriving DecidableEq, Repr

/-- Modelled from the spec: the drive power-state enum of `device.rs`
(not in the provided sources).  §3: "DrivePowerState: enum {Active, Idle,
Standby/SpunDown, Sleeping, Unknown}". -/
inductive PowerState where
  | Active
  | Idle
  | Standby
  | Sleeping
  | Unknown
deriving DecidableEq, Repr

/-- Modelled from the spec: `PowerState::is_spun_down` of `device.rs`
(not in the provided sources).  A drive is spun down when Standby
("Spin-down / Standby: a drive power-saving state in which the platter
stops rotating") or Sleeping (the claim and §8 treat "Standby/Sleeping"
as the spun-down states). -/
def PowerState.is_spun_down : PowerState → Bool
  | .Standby => true
  | .Sleeping => true
  | _ => false

/-- One drive's observable behaviour during one tick: the outcome the
power-state query would yield, the outcome `probe_temp` would yield if
invoked, and the prober's `supports_probing_sleeping` capability flag
(second component of the `drive_probers` pairs in `main.rs`). -/
structure DriveTickInput where
  stateQ : Except TickError PowerState
  probeQ : Except TickError ℚ
  supportsSleeping : Bool
deriving Repr

/-- `collect::<anyhow::Result<Vec<_>>>()`: stop at the first error,
otherwise keep all values in order. -/
def collectResults {α : Type} : List (Except TickError α) → Except TickError (List α)
  | [] => .ok []
  | x :: xs =>
    match x with
    | .error e => .error e
    | .ok a =>
      match collectResults xs with
      | .error e => .error e
      | .ok rest => .ok (a :: rest)

/-- `.reduce(f64::max)` over the flattened temperatures: `none` when the
list is empty, otherwise the maximum. -/
def reduceMax : List ℚ → Option ℚ :=
  List.foldl (fun acc t =>
    match acc with
    | none => some t
    | some m => some (max m t)) none

/-- The per-drive closure of `main.rs` lines 286–302: query the drive
state (propagating failure); if the drive is spun down and the prober
cannot probe sleeping drives, record no temperature; otherwise invoke
`probe_temp` (propagating failure) and record its value. -/
def driveStep (d : DriveTickInput) : Except TickError (Option ℚ) :=
  match d.stateQ with
  | .error e => .error e
  | .ok state =>
    if state.is_spun_down && !d.supportsSleeping then
      .ok none
    else
      match d.probeQ with
      | .error e => .error e
      | .ok t => .ok (some t)

/-- Whether the tick's per-drive closure reaches the `prober.probe_temp()`
call for this drive: only when the state query succeeded and the
sleeping-skip branch was not taken. -/
def probeInvoked (d : DriveTickInput) : Bool :=
  match d.stateQ with
  | .error _ => false
  | .ok state => !(state.is_spun_down && !d.supportsSleeping)

/-- `main.rs` lines 283–307: map every drive through `driveStep`,
collect (short-circuiting on the first error), flatten away the absent
temperatures and reduce with `f64::max`. -/
def drivePhase (ds : List DriveTickInput) : Except TickError (Option ℚ) :=
  match collectResults (ds.map driveStep) with
  | .error e => .error e
  | .ok temps => .ok (reduceMax (temps.filterMap id))

/-- One hwmon's observable behaviour during one tick plus its configured
temperature range. -/
structure HwmonTickInput where
  readQ : Except TickError ℚ
  range : TempRange
deriving Repr

/-- `main.rs` lines 309–318: read every hwmon temperature, collecting
with short-circuit on the first error. -/
def hwmonPhase (hs : List HwmonTickInput) : Except TickError (List ℚ) :=
  collectResults (hs.map (·.readQ))

/-- Everything one tick of the daemon loop observes from the outside
world, together with the startup configuration it uses. -/
structure TickEnv where
  drives : List DriveTickInput
  hwmons : List HwmonTickInput
  driveRange : TempRange
  min_fan_speed : ℚ
deriving Repr

/-- The read-and-compute part of one tick (`main.rs` lines 280–331):
drive phase, then hwmon phase, then the speed fold.  Any failure
propagates and no speed is produced. -/
def tickSpeed (env : TickEnv) : Except TickError ℚ :=
  match drivePhase env.drives with
  | .error e => .error e
  | .ok maxDriveTemp =>
    match hwmonPhase env.hwmons with
    | .error e => .error e
    | .ok temps =>
      .ok (computeSpeed env.min_fan_speed env.driveRange maxDriveTemp
        (temps.zip (env.hwmons.map (·.range))))

/-- One fan as the tick sees it: the last commanded speed (`none` before
the first command) and whether a `set_speed` write on it would succeed
this tick. -/
structure FanDev where
  speed : Option ℚ
  writeOk : Bool
deriving DecidableEq, Repr

/-- The fan-actuation loop of `main.rs` lines 332–335: command each fan
in order with the computed speed; a failing write propagates with `?`,
leaving the remaining fans uncommanded.  Returns the outcome, the fan
states afterwards, and the list of speed commands actually issued. -/
def setSpeeds (fans : List FanDev) (s : ℚ) :
    Except TickError Unit × List FanDev × List ℚ :=
  match fans with
  | [] => (.ok (), [], [])
  | f :: fs =>
    if f.writeOk then
      let (r, fs', cmds) := setSpeeds fs s
      (r, { f with speed := some s } :: fs', s :: cmds)
    else
      (.error .pwmWriteFail, f :: fs, [])

/-- One whole tick (`main.rs` lines 280–335): compute the speed from all
reads, then — only if every read succeeded — command every fan.
Returns the tick outcome, the fan states afterwards, and the speed
commands issued during the tick. -/
def tickRun (env : TickEnv) (fans : List FanDev) :
    Except TickError Unit × List FanDev × List ℚ :=
  match tickSpeed env with
  | .error e => (.error e, fans, [])
  | .ok s => setSpeeds fans s

/-- The daemon loop of `main.rs` (`while !exit_requested { ... }` with
`?` propagating any tick failure out of `main`): run ticks sequentially
until the environments are exhausted or a tick fails; a failing tick
terminates the run immediately with its error. -/
def runDaemon (envs : List TickEnv) (fans : List FanDev) :
    Except TickError Unit × List FanDev :=
  match envs with
  | [] => (.ok (), fans)
  | env :: rest =>
    match tickRun env fans with
    | (.error e, fans', _) => (.error e, fans')
    | (.ok _, fans', _) => runDaemon rest fans'

/-- `interval.saturating_sub(elapsed)` of `main.rs` line 338: `Duration`
is a non-negative quantity, modelled as nanoseconds in `ℕ`; Rust's
`saturating_sub` is exactly truncated subtraction on `ℕ`. -/
def toWait (interval elapsed : ℕ) : ℕ :=
  interval - elapsed

/-- The interruptible sleep of `main.rs` lines 49–51
(`exit_rx.recv_timeout(dur)`): block until either the timeout `dur`
elapses or a termination signal arrives on the channel.  Modelled by the
time actually spent sleeping, given the arrival time of the signal
relative to the start of the sleep (`none` when no signal arrives). -/
def sleepElapsed (dur : ℕ) (signalAt : Option ℕ) : ℕ :=
  match signalAt with
  | none => dur
  | some t => min t dur

/-- Modelled from the spec: one pwm channel managed by `ExitHook`
(`exit.rs` is not in the provided sources; only `ExitHook::new` in
`main.rs` lines 260–266 is).  §4.7: the hook snapshots the channel's raw
value at construction (`captured`), the channel carries its current raw
value, and a restoration write may fail (`restoreOk`). -/
structure HookChannel where
  current : ℕ
  captured : ℕ
  restoreOk : Bool
deriving DecidableEq, Repr

/-- Modelled from the spec: the `ExitHook` of `exit.rs` — the captured
snapshot of every managed pwm channel plus whether the hook has already
fired. -/
structure ExitHook where
  channels : List HookChannel
  fired : Bool
deriving DecidableEq, Repr

/-- Modelled from the spec: restoring one channel — write the captured
raw value back; "one channel's restoration failure is logged and does
not prevent attempting the rest", so a failing write leaves the channel
as it was and restoration continues with the others. -/
def restoreChannel (c : HookChannel) : HookChannel :=
  if c.restoreOk then { c with current := c.captured } else c

/-- Modelled from the spec: firing the `ExitHook` — "Registers to fire
exactly once ... On firing, restores every channel independently and
best-effort ... Idempotent — a second trigger is a no-op." -/
def ExitHook.trigger (h : ExitHook) : ExitHook :=
  if h.fired then
    h
  else
    { channels := h.channels.map restoreChannel, fired := true }

/-- One fan of the `PwmTest` one-shot command as that command observes
it: whether `Fan::new`, `resolve_rpm_path` and `with_rpm_file` succeed,
and the outcome of the `fan.test()` calibration. -/
structure PwmTestFan where
  setupOk : Bool
  rpmPathOk : Bool
  withRpmOk : Bool
  calibration : Except TickError (ℚ × ℚ)
deriving Repr

/-- The `Command::PwmTest` loop of `main.rs` lines 78–100: for each pwm
path in the given order, set up the fan, resolve its rpm path and attach
it — each of these failures aborts the whole command with `?` — then run
`fan.test()`, whose outcome (success or calibration failure) is only
logged, and move on to the next fan.  Returns the recorded per-fan
calibration outcomes in order. -/
def pwmTest (fans : List PwmTestFan) :
    Except TickError (List (Except TickError (ℚ × ℚ))) :=
  match fans with
  | [] => .ok []
  | f :: fs =>
    if f.setupOk then
      if f.rpmPathOk then
        if f.withRpmOk then
          match pwmTest fs with
          | .error e => .error e
          | .ok rest => .ok (f.calibration :: rest)
        else .error .pwmWriteFail
      else .error .pwmWriteFail
    else .error .pwmWriteFail

/-- A concrete tick environment: one Standby drive with a prober that
cannot probe sleeping drives, and no hwmon sensors. -/
def envAllSleeping : TickEnv where
  drives := [⟨Except.ok PowerState.Standby, Except.ok 35, false⟩]
  hwmons := []
  driveRange := ⟨30, 50⟩
  min_fan_speed := 1/5

/-- A concrete drive: reports Standby, temperature 35 °C if probed,
prober without sleeping-probe support. -/
def dStandby : DriveTickInput :=
  ⟨Except.ok PowerState.Standby, Except.ok 35, false⟩

/-- A concrete tick environment whose single hwmon read fails. -/
def envHwmonFail : TickEnv where
  drives := []
  hwmons := [⟨Except.error .hwmonReadFail, ⟨30, 50⟩⟩]
  driveRange := ⟨30, 50⟩
  min_fan_speed := 1/5

/-- A concrete exit hook over two channels, one of which fails to
restore, not yet fired. -/
def hookEx : ExitHook :=
  ⟨[⟨100, 255, true⟩, ⟨100, 128, false⟩], false⟩

/-- A pwm-test fan that sets up fine and calibrates successfully. -/
def ptOk : PwmTestFan :=
  ⟨true, true, true, .ok (80/255, 40/255)⟩

/-- A pwm-test fan that sets up fine but fails calibration. -/
def ptCalFail : PwmTestFan :=
  ⟨true, true, true, .error .pwmWriteFail⟩

/-- A pwm-test fan whose setup (`Fan::new`) fails. -/
def ptSetupFail : PwmTestFan :=
  ⟨false, true, true, .ok (0, 0)⟩

/-- A pwm-test fan whose rpm-path resolution (`resolve_rpm_path`)
fails. -/
def ptRpmFail : PwmTestFan :=
  ⟨true, false, true, .ok (0, 0)⟩

/-- A pwm-test fan whose rpm-file attachment (`with_rpm_file`) fails. -/
def ptAttachFail : PwmTestFan :=
  ⟨true, true, false, .ok (0, 0)⟩

/-! ## Helper lemmas about the speed curve -/

lemma target_speed_ge_floor (temp : ℚ) (r : TempRange) (f : ℚ) (hf : f ≤ 1) :
    f ≤ target_speed temp r f := by
  unfold target_speed
  split_ifs with h1 h2
  · exact le_refl f
  · exact hf
  · have hlt : r.low < temp := lt_of_not_le h1
    have hth : temp < r.high := lt_of_not_le h2
    have hpos : 0 ≤ (1 - f) * (temp - r.low) / (r.high - r.low) := by
      apply div_nonneg
      · apply mul_nonneg <;> linarith
      · linarith
    linarith

lemma target_speed_le_one (temp : ℚ) (r : TempRange) (f : ℚ) (hf : f ≤ 1) :
    target_speed temp r f ≤ 1 := by
  unfold target_speed
  split_ifs with h1 h2
  · exact hf
  · exact le_refl 1
  · have hlt : r.low < temp := lt_of_not_le h1
    have hth : temp < r.high := lt_of_not_le h2
    have hd : 0 < r.high - r.low := by linarith
    rw [mul_div_assoc]
    have hq : (temp - r.low) / (r.high - r.low) ≤ 1 := by
      rw [div_le_one hd]; linarith
    have hq0 : 0 ≤ (temp - r.low) / (r.high - r.low) := by
      apply div_nonneg <;> linarith
    nlinarith

lemma target_speed_mono_floor (temp : ℚ) (r : TempRange) (f1 f2 : ℚ) (h12 : f1 ≤ f2) :
    target_speed temp r f1 ≤ target_speed temp r f2 := by
  unfold target_speed
  split_ifs with h1 h2
  · exact h12
  · exact le_refl 1
  · have hlt : r.low < temp := lt_of_not_le h1
    have hth : temp < r.high := lt_of_not_le h2
    have hd : 0 < r.high - r.low := by linarith
    rw [mul_div_assoc, mul_div_assoc]
    have hq : (temp - r.low) / (r.high - r.low) ≤ 1 := by
      rw [div_le_one hd]; linarith
    have hq0 : 0 ≤ (temp - r.low) / (r.high - r.low) := by
      apply div_nonneg <;> linarith
    nlinarith

lemma foldl_target_le_one (l : List (ℚ × TempRange)) (s : ℚ) (hs : s ≤ 1) :
    l.foldl (fun s p => target_speed p.1 p.2 s) s ≤ 1 := by
  induction l generalizing s with
  | nil => simpa using hs
  | cons p l ih =>
    simpa using ih (target_speed p.1 p.2 s) (target_speed_le_one p.1 p.2 s hs)

lemma foldl_target_ge_init (l : List (ℚ × TempRange)) (s : ℚ) (hs : s ≤ 1) :
    s ≤ l.foldl (fun s p => target_speed p.1 p.2 s) s := by
  induction l generalizing s with
  | nil => simp
  | cons p l ih =>
    have h1 : s ≤ target_speed p.1 p.2 s := target_speed_ge_floor p.1 p.2 s hs
    have h2 := ih (target_speed p.1 p.2 s) (target_speed_le_one p.1 p.2 s hs)
    simpa using le_trans h1 h2

lemma foldl_target_mem_ge (l : List (ℚ × TempRange)) (s : ℚ) (hs : s ≤ 1)
    (p : ℚ × TempRange) (hp : p ∈ l) :
    target_speed p.1 p.2 s ≤ l.foldl (fun s p => target_speed p.1 p.2 s) s := by
  induction l generalizing s with
  | nil => cases hp
  | cons q l ih =>
    have hq1 : target_speed q.1 q.2 s ≤ 1 := target_speed_le_one q.1 q.2 s hs
    rcases List.mem_cons.mp hp with rfl | hmem
    · simpa using foldl_target_ge_init l (target_speed p.1 p.2 s) hq1
    · have hstep : s ≤ target_speed q.1 q.2 s := target_speed_ge_floor q.1 q.2 s hs
      have hmono : target_speed p.1 p.2 s ≤ target_speed p.1 p.2 (target_speed q.1 q.2 s) :=
        target_speed_mono_floor p.1 p.2 s (target_speed q.1 q.2 s) hstep
      simpa using le_trans hmono (ih (target_speed q.1 q.2 s) hq1 hmem)

lemma computeSpeed_ge_floor (f : ℚ) (dr : TempRange) (mdt : Option ℚ)
    (l : List (ℚ × TempRange)) (hf : f ≤ 1) :
    f ≤ computeSpeed f dr mdt l := by
  unfold computeSpeed
  cases mdt with
  | none => simpa using foldl_target_ge_init l f hf
  | some t =>
    have h1 : f ≤ target_speed t dr f := target_speed_ge_floor t dr f hf
    have h2 := foldl_target_ge_init l (target_speed t dr f) (target_speed_le_one t dr f hf)
    simpa using le_trans h1 h2

/-! ## Helper lemmas about error collection and the drive phase -/

lemma collectResults_error_of_mem {α : Type} (l : List (Except TickError α))
    (x : Except TickError α) (hx : x ∈ l) (e : TickError) (he : x = .error e) :
    ∃ e', collectResults l = .error e' := by
  induction l with
  | nil => cases hx
  | cons y ys ih =>
    cases y with
    | error e0 => exact ⟨e0, by simp [collectResults]⟩
    | ok a =>
      rcases List.mem_cons.mp hx with rfl | hmem
      · cases he
      · obtain ⟨e', h'⟩ := ih hmem
        exact ⟨e', by simp [collectResults, h']⟩

lemma collectResults_ok_none (l : List (Except TickError (Option ℚ)))
    (h : ∀ x ∈ l, x = .ok none) :
    ∃ v, collectResults l = .ok v ∧ v.filterMap id = [] := by
  induction l with
  | nil => exact ⟨[], rfl, rfl⟩
  | cons y ys ih =>
    have hy : y = .ok none := h y (List.mem_cons_self y ys)
    obtain ⟨v, hv, hfm⟩ := ih (fun x hx => h x (List.mem_cons_of_mem y hx))
    refine ⟨none :: v, ?_, ?_⟩
    · simp [collectResults, hy, hv]
    · simpa using hfm

lemma driveStep_skip (d : DriveTickInput) (st : PowerState)
    (h1 : d.stateQ = .ok st) (h2 : st.is_spun_down = true)
    (h3 : d.supportsSleeping = false) :
    driveStep d = .ok none := by
  simp [driveStep, h1, h2, h3]

lemma drivePhase_cons_none (d : DriveTickInput) (hd : driveStep d = .ok none)
    (rest : List DriveTickInput) :
    drivePhase (d :: rest) = drivePhase rest := by
  unfold drivePhase
  simp only [List.map_cons, collectResults, hd]
  cases h : collectResults (rest.map driveStep) with
  | error e => rfl
  | ok temps => simp

lemma drivePhase_all_none (ds : List DriveTickInput)
    (h : ∀ d ∈ ds, driveStep d = .ok none) :
    drivePhase ds = .ok none := by
  obtain ⟨v, hv, hfm⟩ :=
    collectResults_ok_none (ds.map driveStep)
      (by intro x hx; obtain ⟨d, hd, rfl⟩ := List.mem_map.mp hx; exact h d hd)
  simp [drivePhase, hv, hfm, reduceMax]

/-- A tick whose environment contains a read failure that the tick's
sequential execution would encounter — a drive power-state query
failure, a temperature-probe failure on a drive that gets probed, or a
hwmon read failure — produces a tick-level error. -/
lemma tickSpeed_error_of_read_failure (env : TickEnv)
    (hfail :
      (∃ d ∈ env.drives, (∃ e, d.stateQ = .error e) ∨
        (probeInvoked d = true ∧ ∃ e, d.probeQ = .error e)) ∨
      (∃ w ∈ env.hwmons, ∃ e, w.readQ = .error e)) :
    ∃ e, tickSpeed env = .error e := by
  rcases hfail with ⟨d, hd, hfa⟩ | ⟨w, hw, e, he⟩
  · have hds : ∃ e', driveStep d = .error e' := by
      rcases hfa with ⟨e, he⟩ | ⟨hpi, e, he⟩
      · exact ⟨e, by simp [driveStep, he]⟩
      · cases hst : d.stateQ with
        | error e0 => simp [probeInvoked, hst] at hpi
        | ok st =>
          have hor : st.is_spun_down = false ∨ d.supportsSleeping = true := by
            simpa [probeInvoked, hst] using hpi
          have hskip : (st.is_spun_down && !d.supportsSleeping) = false := by
            rcases hor with h | h <;> simp [h]
          exact ⟨e, by simp [driveStep, hst, hskip, he]⟩
    obtain ⟨e', hde⟩ := hds
    obtain ⟨e'', hce⟩ := collectResults_error_of_mem (env.drives.map driveStep)
      (driveStep d) (List.mem_map_of_mem driveStep hd) e' hde
    exact ⟨e'', by simp [tickSpeed, drivePhase, hce]⟩
  · cases h1 : drivePhase env.drives with
    | error e0 => exact ⟨e0, by simp [tickSpeed, h1]⟩
    | ok mdt =>
      obtain ⟨e', hce⟩ := collectResults_error_of_mem (env.hwmons.map (·.readQ))
        w.readQ (List.mem_map_of_mem _ hw) e he
      exact ⟨e', by simp [tickSpeed, h1, hwmonPhase, hce]⟩

/-! ## Helper lemmas about the exit hook -/

lemma ExitHook.trigger_of_fired (h : ExitHook) (hf : h.fired = true) :
    ExitHook.trigger h = h := by
  simp [ExitHook.trigger, hf]

lemma ExitHook.fired_trigger (h : ExitHook) : (ExitHook.trigger h).fired = true := by
  unfold ExitHook.trigger
  split_ifs with hf
  · exact hf
  · rfl

lemma ExitHook.trigger_trigger (h : ExitHook) :
    ExitHook.trigger (ExitHook.trigger h) = ExitHook.trigger h :=
  ExitHook.trigger_of_fired _ (ExitHook.fired_trigger h)

lemma ExitHook.iterate_trigger (h : ExitHook) (n : ℕ) :
    ExitHook.trigger^[n] (ExitHook.trigger h) = ExitHook.trigger h := by
  induction n with
  | zero => rfl
  | succ n ih => rw [Function.iterate_succ_apply, ExitHook.trigger_trigger, ih]

/-! ## Helper lemmas about the pwm-test command -/

lemma pwmTest_all_ok (fans : List PwmTestFan)
    (h : ∀ f ∈ fans, f.setupOk = true ∧ f.rpmPathOk = true ∧ f.withRpmOk = true) :
    pwmTest fans = .ok (fans.map (·.calibration)) := by
  induction fans with
  | nil => rfl
  | cons f fs ih =>
    obtain ⟨h1, h2, h3⟩ := h f (List.mem_cons_self f fs)
    have hrest := ih (fun g hg => h g (List.mem_cons_of_mem f hg))
    simp [pwmTest, h1, h2, h3, hrest]

lemma pwmTest_cons_bad (bad : PwmTestFan) (post : List PwmTestFan)
    (hbad : bad.setupOk = false ∨ bad.rpmPathOk = false ∨ bad.withRpmOk = false) :
    pwmTest (bad :: post) = .error .pwmWriteFail := by
  rcases hbad with h | h | h
  · simp [pwmTest, h]
  · cases hs : bad.setupOk <;> simp [pwmTest, hs, h]
  · cases hs : bad.setupOk <;> cases hr : bad.rpmPathOk <;> simp [pwmTest, hs, hr, h]

lemma pwmTest_abort (pre : List PwmTestFan) (bad : PwmTestFan) (post : List PwmTestFan)
    (hpre : ∀ f ∈ pre, f.setupOk = true ∧ f.rpmPathOk = true ∧ f.withRpmOk = true)
    (hbad : bad.setupOk = false ∨ bad.rpmPathOk = false ∨ bad.withRpmOk = false) :
    pwmTest (pre ++ bad :: post) = .error .pwmWriteFail := by
  induction pre with
  | nil => simpa using pwmTest_cons_bad bad post hbad
  | cons f fs ih =>
    obtain ⟨h1, h2, h3⟩ := hpre f (List.mem_cons_self f fs)
    have hrest := ih (fun g hg => hpre g (List.mem_cons_of_mem f hg))
    simp [pwmTest, h1, h2, h3, hrest]

/-! ## Claim theorems -/

/-- C3: `target_speed(temp, range, f)` returns exactly `f` when
`temp ≤ low`, exactly `1` when `temp ≥ high`, and exactly
`f + (1 - f) * (temp - low) / (high - low)` otherwise; with range
30–50 °C, floor 20 %, temp 40 °C the result is 60 %. -/
theorem target_speed_piecewise (temp f : ℚ) (r : TempRange) (hr : r.low < r.high) :
    (temp ≤ r.low → target_speed temp r f = f) ∧
    (r.high ≤ temp → target_speed temp r f = 1) ∧
    (r.low < temp → temp < r.high →
      target_speed temp r f = f + (1 - f) * (temp - r.low) / (r.high - r.low)) ∧
    target_speed 40 ⟨30, 50⟩ (1/5) = 3/5 := by
  refine ⟨?_, ?_, ?_, ?_⟩
  · intro h
    simp [target_speed, h]
  · intro h
    have h' : ¬ temp ≤ r.low := by intro hle; linarith
    simp [target_speed, h', h]
  · intro h1 h2
    have h1' : ¬ temp ≤ r.low := not_le.mpr h1
    have h2' : ¬ r.high ≤ temp := not_le.mpr h2
    simp [target_speed, h1', h2']
  · norm_num [target_speed]

theorem target_speed_piecewise_witness :
    (30:ℚ) < 50 ∧
    (((40:ℚ) ≤ (30:ℚ) → target_speed 40 ⟨30, 50⟩ (1/5) = 1/5) ∧
     ((50:ℚ) ≤ 40 → target_speed 40 ⟨30, 50⟩ (1/5) = 1) ∧
     ((30:ℚ) < 40 → (40:ℚ) < 50 →
       target_speed 40 ⟨30, 50⟩ (1/5) = 1/5 + (1 - 1/5) * (40 - 30) / (50 - 30)) ∧
     target_speed 40 ⟨30, 50⟩ (1/5) = 3/5) :=
  ⟨by norm_num, target_speed_piecewise 40 (1/5) ⟨30, 50⟩ (by norm_num)⟩

/-- C6: for a fixed range and floor speed (subject to the documented
Speed invariant `floor ≤ 1`), `target_speed` is monotonically
non-decreasing in its temperature argument over `[low, high]`. -/
theorem target_speed_mono_temp (r : TempRange) (f t1 t2 : ℚ) (hf : f ≤ 1)
    (hl : r.low ≤ t1) (h12 : t1 ≤ t2) (hh : t2 ≤ r.high) :
    target_speed t1 r f ≤ target_speed t2 r f := by
  by_cases hA1 : t1 ≤ r.low
  · have e1 : target_speed t1 r f = f := by simp [target_speed, hA1]
    rw [e1]
    exact target_speed_ge_floor t2 r f hf
  · by_cases hB2 : r.high ≤ t2
    · have hB1 : ¬ t2 ≤ r.low := by
        push_neg at hA1
        intro hle; linarith
      have e2 : target_speed t2 r f = 1 := by simp [target_speed, hB1, hB2]
      rw [e2]
      exact target_speed_le_one t1 r f hf
    · push_neg at hA1 hB2
      have hA2 : ¬ r.high ≤ t1 := by intro hle; linarith
      have hB1 : ¬ t2 ≤ r.low := by intro hle; linarith
      have hd : 0 < r.high - r.low := by linarith
      simp only [target_speed, if_neg (not_le.mpr hA1), if_neg hA2,
        if_neg hB1, if_neg (not_le.mpr hB2)]
      rw [mul_div_assoc, mul_div_assoc]
      have hq12 : (t1 - r.low) / (r.high - r.low) ≤ (t2 - r.low) / (r.high - r.low) :=
        (div_le_div_right hd).mpr (by linarith)
      nlinarith [mul_le_mul_of_nonneg_left hq12 (show (0:ℚ) ≤ 1 - f by linarith)]

theorem target_speed_mono_temp_witness :
    (1/5 : ℚ) ≤ 1 ∧ (30:ℚ) ≤ 35 ∧ (35:ℚ) ≤ 45 ∧ (45:ℚ) ≤ 50 ∧
    target_speed 35 ⟨30, 50⟩ (1/5) ≤ target_speed 45 ⟨30, 50⟩ (1/5) :=
  ⟨by norm_num, by norm_num, by norm_num, by norm_num,
    target_speed_mono_temp ⟨30, 50⟩ (1/5) 35 45 (by norm_num) (by norm_num)
      (by norm_num) (by norm_num)⟩

/-- C1 counterexample: with floor speed 20 % and two hwmon sensors whose
independent curve results are 30 % and 70 %, the tick's speed fold of
`main.rs` (which passes the running speed as the floor of each
`target_speed` call) commands 59/80 = 73.75 %, not the maximum 70 % of
the independent results — though it does stay ≥ 70 %. -/
theorem computeSpeed_not_max_of_independent :
    target_speed 1 ⟨0, 8⟩ (1/5) = 3/10 ∧
    target_speed 5 ⟨0, 8⟩ (1/5) = 7/10 ∧
    computeSpeed (1/5) ⟨30, 50⟩ none [(1, ⟨0, 8⟩), (5, ⟨0, 8⟩)] = 59/80 ∧
    (59/80 : ℚ) ≠ max (3/10) (7/10) ∧
    (7/10 : ℚ) ≤ 59/80 := by
  refine ⟨?_, ?_, ?_, ?_, ?_⟩ <;> norm_num [target_speed, computeSpeed, max_def]

/-- C1 (amended): the commanded speed of a tick is the fold of the speed
curve through the running speed, and it is greater than or equal to
every individual sensor's curve result evaluated independently against
its own range with the configured floor speed (for the drive-maximum
temperature as well as for every hwmon sensor). -/
theorem computeSpeed_ge_each_sensor (f : ℚ) (dr : TempRange) (mdt : Option ℚ)
    (l : List (ℚ × TempRange)) (hf : f ≤ 1) :
    (∀ p ∈ l, target_speed p.1 p.2 f ≤ computeSpeed f dr mdt l) ∧
    (∀ t, mdt = some t → target_speed t dr f ≤ computeSpeed f dr mdt l) := by
  constructor
  · intro p hp
    unfold computeSpeed
    cases mdt with
    | none => simpa using foldl_target_mem_ge l f hf p hp
    | some t =>
      have hst : f ≤ target_speed t dr f := target_speed_ge_floor t dr f hf
      have h1 : target_speed p.1 p.2 f ≤ target_speed p.1 p.2 (target_speed t dr f) :=
        target_speed_mono_floor p.1 p.2 f (target_speed t dr f) hst
      have h2 := foldl_target_mem_ge l (target_speed t dr f)
        (target_speed_le_one t dr f hf) p hp
      simpa using le_trans h1 h2
  · intro t ht
    subst ht
    unfold computeSpeed
    simpa using foldl_target_ge_init l (target_speed t dr f)
      (target_speed_le_one t dr f hf)

theorem computeSpeed_ge_each_sensor_witness :
    (1/5 : ℚ) ≤ 1 ∧
    ((∀ p ∈ [((1:ℚ), TempRange.mk 0 8)],
        target_speed p.1 p.2 (1/5) ≤
          computeSpeed (1/5) ⟨30, 50⟩ (some 40) [((1:ℚ), TempRange.mk 0 8)]) ∧
     (∀ t, (some (40:ℚ)) = some t →
        target_speed t ⟨30, 50⟩ (1/5) ≤
          computeSpeed (1/5) ⟨30, 50⟩ (some 40) [((1:ℚ), TempRange.mk 0 8)])) :=
  ⟨by norm_num,
    computeSpeed_ge_each_sensor (1/5) ⟨30, 50⟩ (some 40)
      [((1:ℚ), TempRange.mk 0 8)] (by norm_num)⟩

/-- C5: the commanded speed of every successful tick is at least the
configured floor speed, and when every drive is spun down (with a
non-sleeping-capable prober) and no hwmon sensor is configured, it
equals the floor speed exactly. -/
theorem speed_at_least_floor (env : TickEnv) (s : ℚ)
    (hf : env.min_fan_speed ≤ 1) (hs : tickSpeed env = .ok s) :
    env.min_fan_speed ≤ s ∧
    ((∀ d ∈ env.drives, ∃ st, d.stateQ = .ok st ∧ st.is_spun_down = true ∧
        d.supportsSleeping = false) →
      env.hwmons = [] → s = env.min_fan_speed) := by
  cases h1 : drivePhase env.drives with
  | error e => simp [tickSpeed, h1] at hs
  | ok mdt =>
    cases h2 : hwmonPhase env.hwmons with
    | error e => simp [tickSpeed, h1, h2] at hs
    | ok temps =>
      simp only [tickSpeed, h1, h2, Except.ok.injEq] at hs
      subst hs
      constructor
      · exact computeSpeed_ge_floor _ _ _ _ hf
      · intro hsleep hhw
        have hnone : drivePhase env.drives = .ok none :=
          drivePhase_all_none _ (fun d hd => by
            obtain ⟨st, hst, hspun, hsup⟩ := hsleep d hd
            exact driveStep_skip d st hst hspun hsup)
        rw [h1] at hnone
        injection hnone with hmdt
        subst hmdt
        simp [hhw, computeSpeed]

theorem speed_at_least_floor_witness :
    envAllSleeping.min_fan_speed ≤ 1 ∧
    tickSpeed envAllSleeping = .ok (1/5) ∧
    (envAllSleeping.min_fan_speed ≤ (1/5 : ℚ) ∧
     ((∀ d ∈ envAllSleeping.drives,
        ∃ st, d.stateQ = .ok st ∧ st.is_spun_down = true ∧
          d.supportsSleeping = false) →
      envAllSleeping.hwmons = [] →
      (1/5 : ℚ) = envAllSleeping.min_fan_speed)) :=
  ⟨by norm_num [envAllSleeping], by rfl,
    speed_at_least_floor envAllSleeping (1/5) (by norm_num [envAllSleeping]) (by rfl)⟩

/-- C2: a drive whose queried power state is spun down and whose prober
lacks sleeping-probe support is not probed during the tick (the
`probe_temp` call is not reached), records no temperature, and
contributes nothing to the maximum-drive-temperature aggregation. -/
theorem sleeping_drive_skipped (d : DriveTickInput) (st : PowerState)
    (h1 : d.stateQ = .ok st) (h2 : st.is_spun_down = true)
    (h3 : d.supportsSleeping = false) :
    probeInvoked d = false ∧ driveStep d = .ok none ∧
    ∀ rest, drivePhase (d :: rest) = drivePhase rest := by
  refine ⟨?_, driveStep_skip d st h1 h2 h3, ?_⟩
  · simp [probeInvoked, h1, h2, h3]
  · intro rest
    exact drivePhase_cons_none d (driveStep_skip d st h1 h2 h3) rest

theorem sleeping_drive_skipped_witness :
    dStandby.stateQ = .ok PowerState.Standby ∧
    PowerState.Standby.is_spun_down = true ∧
    dStandby.supportsSleeping = false ∧
    probeInvoked dStandby = false ∧
    driveStep dStandby = .ok none ∧
    drivePhase [dStandby, ⟨Except.ok PowerState.Active, Except.ok 42, false⟩] =
      drivePhase [⟨Except.ok PowerState.Active, Except.ok 42, false⟩] :=
  ⟨rfl, rfl, rfl,
    (sleeping_drive_skipped dStandby PowerState.Standby rfl rfl rfl).1,
    (sleeping_drive_skipped dStandby PowerState.Standby rfl rfl rfl).2.1,
    (sleeping_drive_skipped dStandby PowerState.Standby rfl rfl rfl).2.2
      [⟨Except.ok PowerState.Active, Except.ok 42, false⟩]⟩

/-- C4: every read failure a tick encounters — a drive power-state query
failure, a temperature-probe failure on a drive that gets probed, or a
hwmon read failure — surfaces as a tick-level error, and the daemon loop
terminates immediately with that error without running further ticks. -/
theorem read_failure_terminates_daemon (env : TickEnv)
    (hfail :
      (∃ d ∈ env.drives, (∃ e, d.stateQ = .error e) ∨
        (probeInvoked d = true ∧ ∃ e, d.probeQ = .error e)) ∨
      (∃ w ∈ env.hwmons, ∃ e, w.readQ = .error e)) :
    ∃ e, tickSpeed env = .error e ∧
      ∀ rest fans, runDaemon (env :: rest) fans = (.error e, fans) := by
  obtain ⟨e, he⟩ := tickSpeed_error_of_read_failure env hfail
  exact ⟨e, he, fun rest fans => by simp [runDaemon, tickRun, he]⟩

theorem read_failure_terminates_daemon_witness :
    (∃ w ∈ envHwmonFail.hwmons, ∃ e, w.readQ = .error e) ∧
    (∃ e, tickSpeed envHwmonFail = .error e ∧
      ∀ rest fans, runDaemon (envHwmonFail :: rest) fans = (.error e, fans)) :=
  ⟨⟨⟨Except.error .hwmonReadFail, ⟨30, 50⟩⟩, by simp [envHwmonFail],
      .hwmonReadFail, rfl⟩,
    read_failure_terminates_daemon envHwmonFail
      (Or.inr ⟨⟨Except.error .hwmonReadFail, ⟨30, 50⟩⟩, by simp [envHwmonFail],
        .hwmonReadFail, rfl⟩)⟩

/-- C7: at the end of a tick the loop sleeps for
`max(0, interval − elapsed)` — `Duration::saturating_sub` saturates at
zero — and the interruptible sleep returns as soon as a termination
signal arrives, without waiting out the remainder. -/
theorem tick_sleep_saturating_interruptible (interval elapsed t : ℕ)
    (ht : t < toWait interval elapsed) :
    ((toWait interval elapsed : ℤ) = max 0 ((interval : ℤ) - (elapsed : ℤ))) ∧
    sleepElapsed (toWait interval elapsed) none = toWait interval elapsed ∧
    sleepElapsed (toWait interval elapsed) (some t) = t ∧
    sleepElapsed (toWait interval elapsed) (some t) < toWait interval elapsed := by
  refine ⟨?_, rfl, ?_, ?_⟩
  · unfold toWait
    omega
  · simp only [sleepElapsed, toWait] at *
    omega
  · simp only [sleepElapsed, toWait] at *
    omega

theorem tick_sleep_saturating_interruptible_witness :
    2 < toWait 10 3 ∧
    (((toWait 10 3 : ℤ) = max 0 ((10 : ℤ) - (3 : ℤ))) ∧
     sleepElapsed (toWait 10 3) none = toWait 10 3 ∧
     sleepElapsed (toWait 10 3) (some 2) = 2 ∧
     sleepElapsed (toWait 10 3) (some 2) < toWait 10 3) :=
  ⟨by decide, tick_sleep_saturating_interruptible 10 3 2 (by decide)⟩

/-- C8: firing the exit hook restores every managed pwm channel to its
captured pre-daemon raw value independently and best-effort (a channel
whose restoration write fails is left alone and does not prevent the
others from being restored), and any further trigger after the first is
a no-op. -/
theorem exit_hook_once_best_effort (h : ExitHook) (hnf : h.fired = false) :
    (ExitHook.trigger h).channels = h.channels.map restoreChannel ∧
    (∀ c ∈ h.channels, c.restoreOk = true → (restoreChannel c).current = c.captured) ∧
    (∀ c ∈ h.channels, c.restoreOk = false → restoreChannel c = c) ∧
    ExitHook.trigger (ExitHook.trigger h) = ExitHook.trigger h ∧
    ∀ n, ExitHook.trigger^[n + 1] h = ExitHook.trigger h := by
  refine ⟨?_, ?_, ?_, ExitHook.trigger_trigger h, ?_⟩
  · simp [ExitHook.trigger, hnf]
  · intro c _ hc
    simp [restoreChannel, hc]
  · intro c _ hc
    simp [restoreChannel, hc]
  · intro n
    rw [Function.iterate_succ_apply]
    exact ExitHook.iterate_trigger h n

theorem exit_hook_once_best_effort_witness :
    hookEx.fired = false ∧
    (ExitHook.trigger hookEx).channels = hookEx.channels.map restoreChannel ∧
    ExitHook.trigger (ExitHook.trigger hookEx) = ExitHook.trigger hookEx ∧
    ExitHook.trigger^[2] hookEx = ExitHook.trigger hookEx :=
  ⟨rfl, (exit_hook_once_best_effort hookEx rfl).1,
    (exit_hook_once_best_effort hookEx rfl).2.2.2.1,
    (exit_hook_once_best_effort hookEx rfl).2.2.2.2 1⟩

/-- C9: the tick writes fan speeds only after every drive power-state
query, drive temperature probe and hwmon read has succeeded; if any of
those reads fails, the tick issues no speed command and leaves every
fan's state unchanged. -/
theorem no_fan_write_on_read_failure (env : TickEnv) (fans : List FanDev)
    (hfail :
      (∃ d ∈ env.drives, (∃ e, d.stateQ = .error e) ∨
        (probeInvoked d = true ∧ ∃ e, d.probeQ = .error e)) ∨
      (∃ w ∈ env.hwmons, ∃ e, w.readQ = .error e)) :
    ∃ e, tickRun env fans = (.error e, fans, []) := by
  obtain ⟨e, he⟩ := tickSpeed_error_of_read_failure env hfail
  exact ⟨e, by simp [tickRun, he]⟩

theorem no_fan_write_on_read_failure_witness :
    (∃ w ∈ envHwmonFail.hwmons, ∃ e, w.readQ = .error e) ∧
    (∃ e, tickRun envHwmonFail [⟨none, true⟩] =
      (.error e, [⟨none, true⟩], ([] : List ℚ))) :=
  ⟨⟨⟨Except.error .hwmonReadFail, ⟨30, 50⟩⟩, by simp [envHwmonFail],
      .hwmonReadFail, rfl⟩,
    no_fan_write_on_read_failure envHwmonFail [⟨none, true⟩]
      (Or.inr ⟨⟨Except.error .hwmonReadFail, ⟨30, 50⟩⟩, by simp [envHwmonFail],
        .hwmonReadFail, rfl⟩)⟩

/-- C10: the pwm-test command tests fans sequentially in the given
order; a calibration failure for one fan is only recorded and every
remaining fan is still tested, while a failure of any step of a fan's
setup chain — `Fan::new`, `resolve_rpm_path` or `with_rpm_file` —
aborts the whole command. -/
theorem pwm_test_continues_after_calibration_failure
    (fans pre post : List PwmTestFan) (bad : PwmTestFan)
    (hgood : ∀ f ∈ fans, f.setupOk = true ∧ f.rpmPathOk = true ∧ f.withRpmOk = true)
    (hpre : ∀ f ∈ pre, f.setupOk = true ∧ f.rpmPathOk = true ∧ f.withRpmOk = true)
    (hbad : bad.setupOk = false ∨ bad.rpmPathOk = false ∨ bad.withRpmOk = false) :
    pwmTest fans = .ok (fans.map (·.calibration)) ∧
    pwmTest (pre ++ bad :: post) = .error .pwmWriteFail :=
  ⟨pwmTest_all_ok fans hgood, pwmTest_abort pre bad post hpre hbad⟩

theorem pwm_test_continues_after_calibration_failure_witness :
    (∀ f ∈ [ptOk, ptCalFail, ptOk], f.setupOk = true ∧ f.rpmPathOk = true ∧
      f.withRpmOk = true) ∧
    (∀ f ∈ [ptOk], f.setupOk = true ∧ f.rpmPathOk = true ∧ f.withRpmOk = true) ∧
    ptSetupFail.setupOk = false ∧
    ptRpmFail.rpmPathOk = false ∧
    ptAttachFail.withRpmOk = false ∧
    (pwmTest [ptOk, ptCalFail, ptOk] =
      .ok ([ptOk, ptCalFail, ptOk].map (·.calibration)) ∧
     pwmTest ([ptOk] ++ ptSetupFail :: [ptOk]) = .error .pwmWriteFail) ∧
    pwmTest ([ptOk] ++ ptRpmFail :: [ptOk]) = .error .pwmWriteFail ∧
    pwmTest ([ptOk] ++ ptAttachFail :: [ptOk]) = .error .pwmWriteFail :=
  ⟨by intro f hf; fin_cases hf <;> simp [ptOk, ptCalFail],
    by intro f hf; fin_cases hf <;> simp [ptOk],
    rfl, rfl, rfl,
    pwm_test_continues_after_calibration_failure [ptOk, ptCalFail, ptOk]
      [ptOk] [ptOk] ptSetupFail
      (by intro f hf; fin_cases hf <;> simp [ptOk, ptCalFail])
      (by intro f hf; fin_cases hf <;> simp [ptOk])
      (Or.inl rfl),
    (pwm_test_continues_after_calibration_failure [ptOk, ptCalFail, ptOk]
      [ptOk] [ptOk] ptRpmFail
      (by intro f hf; fin_cases hf <;> simp [ptOk, ptCalFail])
      (by intro f hf; fin_cases hf <;> simp [ptOk])
      (Or.inr (Or.inl rfl))).2,
    (pwm_test_continues_after_calibration_failure [ptOk, ptCalFail, ptOk]
      [ptOk] [ptOk] ptAttachFail
      (by intro f hf; fin_cases hf <;> simp [ptOk, ptCalFail])
      (by intro f hf; fin_cases hf <;> simp [ptOk])
      (Or.inr (Or.inr rfl))).2⟩

end Hddfancontrol
